import Mathlib

/-!
Verification of the SurgeMQ message codec and persistence layer.

Bytes are modelled as `Nat` (each meant to be `< 256`; arithmetic that can
overflow in Go is written with explicit `% 256` / `% 65536`).  Go functions
returning `(int, error)` are modelled as returning a tuple with an
`Option Err` component; Go code that can panic (out-of-range slice index,
`binary.BigEndian.Uint16` on a short slice, nil dereference) is modelled
with the `GoResult` wrapper whose `.panics` constructor marks a runtime
panic.
-/

deriving instance DecidableEq for Except

namespace SurgeMQ

/-- The shared error taxonomy of the codec and the persistence layer
(message/errors plus persistence/types errors). -/
inductive Err where
  | insufficientBufferSize
  | invalidLength
  | invalidMessageType
  | invalidMessageTypeFlags
  | invalidReturnCode
  | invalidQoS
  | invalidTopic
  | packedIDZero
  | notOpen
  | notFound
  | alreadyExists
  | boltBucketNotFound
  deriving DecidableEq, Repr

/-- Outcome of running a piece of Go code: either a runtime panic or a
returned value. -/
inductive GoResult (α : Type) where
  | panics
  | ret (a : α)
  deriving DecidableEq, Repr

/-- `binary.BigEndian.PutUint16`: the two big-endian bytes of a 16-bit value
(Go truncates to the low 16 bits). -/
def itob16 (v : Nat) : List Nat :=
  [v % 65536 / 256, v % 256]

/-- `binary.BigEndian.Uint16` reads two bytes big-endian; it panics when the
slice holds fewer than 2 bytes. -/
def readUint16 (src : List Nat) : GoResult Nat :=
  match src with
  | b0 :: b1 :: _ => .ret (b0 * 256 + b1)
  | _ => .panics

/-- Fuel-indexed helper for the varint encoder (structural recursion so the
kernel can evaluate it; the fallback at fuel 0 is unreachable for the fuel
used by `encodeVarint`). -/
def encodeVarintAux : Nat → Nat → List Nat
  | 0, n => [n % 128]
  | fuel + 1, n =>
    if n < 128 then [n] else (n % 128 + 128) :: encodeVarintAux fuel (n / 128)

/-- Minimal MQTT remaining-length varint encoding: 7 bits per byte, least
significant group first, continuation flag in the top bit. -/
def encodeVarint (n : Nat) : List Nat := encodeVarintAux (n + 1) n

/-- Remaining-length varint decoding reading at most `fuel` bytes
(the protocol allows at most 4); returns the value and the number of bytes
consumed, or `none` on a truncated or over-long varint. -/
def decodeVarintFrom (src : List Nat) (fuel : Nat) : Option (Nat × Nat) :=
  match fuel, src with
  | 0, _ => none
  | _ + 1, [] => none
  | fuel + 1, b :: rest =>
    if b < 128 then some (b, 1)
    else
      match decodeVarintFrom rest fuel with
      | some (v, c) => some (b % 128 + 128 * v, c + 1)
      | none => none

/-- `Type.DefaultFlags`: fixed flag bits mandated per message type
(PUBREL = 6, SUBSCRIBE = 8 and UNSUBSCRIBE = 10 use 2, everything else 0),
as pinned by `TestFixedHeaderFlags`. -/
def defaultFlags (t : Nat) : Nat :=
  if t = 6 ∨ t = 8 ∨ t = 10 then 2 else 0

/-- The fixed header state carried by every message: the type+flags byte and
the decoded remaining length. -/
structure Header where
  mTypeFlags : Nat
  remLen : Nat
  deriving DecidableEq, Repr

/-- Modelled from the spec: `header.decode` (the fixed-header decode routine
is not among the provided source files).  Per spec §4.1 it reads byte 0 as
type (top 4 bits) and flags (bottom 4 bits), fails `ErrInvalidMessageType`
for a type outside 1..14, fails `ErrInvalidMessageTypeFlags` when the flags
do not match the type's mandated pattern (except for PUBLISH whose flags are
semantic), then decodes the remaining length as a 1-4 byte varint, failing
`ErrInvalidLength` on a malformed varint or when the declared remaining
length exceeds the rest of the buffer.  The error branch carries the bytes
consumed so far. -/
def headerDecode (src : List Nat) : Except (Nat × Err) (Header × Nat) :=
  match src with
  | [] => .error (0, .invalidLength)
  | b0 :: rest =>
    if b0 / 16 < 1 ∨ 14 < b0 / 16 then .error (0, .invalidMessageType)
    else if b0 / 16 ≠ 3 ∧ b0 % 16 ≠ defaultFlags (b0 / 16) then
      .error (0, .invalidMessageTypeFlags)
    else
      match decodeVarintFrom rest 4 with
      | none => .error (1, .invalidLength)
      | some (v, c) =>
        if src.length - (1 + c) < v then .error (1 + c, .invalidLength)
        else .ok ({ mTypeFlags := b0, remLen := v }, 1 + c)

/-- Modelled from the spec: `header.encode` writes the type+flags byte
followed by the minimal varint encoding of the remaining length
(spec §4.1, §6). -/
def headerEncode (h : Header) : List Nat :=
  h.mTypeFlags :: encodeVarint h.remLen

/-- Total encoded size of a message whose remaining length is `remLen`:
fixed-header bytes plus the payload (spec §4.4 `Size()`). -/
def fullSize (remLen : Nat) : Nat :=
  1 + (encodeVarint remLen).length + remLen

end SurgeMQ

namespace SurgeMQ

/-! ## PUBREL (src/message/pubrel.go) -/

/-- `PubRelMessage`: fixed header state plus the packet identifier. -/
structure PubRelMessage where
  mTypeFlags : Nat
  remLen : Nat
  packetID : Nat
  deriving DecidableEq, Repr

/-- `NewPubRelMessage`: `setType(PUBREL)` yields type+flags byte `0x60`,
then `msg.mTypeFlags |= 0x02`; `sizeCb` is `size` which returns 2. -/
def newPubRelMessage : PubRelMessage :=
  { mTypeFlags := 0x62, remLen := 0, packetID := 0 }

/-- `PubRelMessage.size`: the remaining length is the 2 packet-ID bytes. -/
def pubRelBodySize : Nat := 2

/-- `PubRelMessage.decode`: header decode, then an unguarded big-endian
`Uint16` read of the packet ID (which panics when fewer than 2 bytes
remain). -/
def pubRelDecode (msg : PubRelMessage) (src : List Nat) :
    GoResult (PubRelMessage × Nat × Option Err) :=
  match headerDecode src with
  | .error (n, e) => .ret (msg, n, some e)
  | .ok (hd, hn) =>
    match readUint16 (src.drop hn) with
    | .panics => .panics
    | .ret pid =>
      .ret ({ mTypeFlags := hd.mTypeFlags, remLen := hd.remLen, packetID := pid }, hn + 2, none)

/-- `PubRelMessage.preEncode`: fails `ErrPackedIDZero` when the packet ID is
still the zero sentinel, else writes the header then the packet ID.
Returns (bytes written, returned count, error). -/
def pubRelPreEncode (msg : PubRelMessage) : List Nat × Nat × Option Err :=
  if msg.packetID = 0 then ([], 0, some .packedIDZero)
  else
    let out := headerEncode { mTypeFlags := msg.mTypeFlags, remLen := pubRelBodySize }
        ++ itob16 msg.packetID
    (out, out.length, none)

/-- `PubRelMessage.Encode`: checks the destination against `Size()` and
delegates to `preEncode`. -/
def pubRelEncode (msg : PubRelMessage) (dstLen : Nat) : List Nat × Nat × Option Err :=
  if dstLen < fullSize pubRelBodySize then
    ([], fullSize pubRelBodySize, some .insufficientBufferSize)
  else pubRelPreEncode msg

/-! ## SUBACK (src/unnamed/part_002) -/

/-- `SubAckMessage`: fixed header state, packet identifier, and the list of
per-subscription return codes. -/
structure SubAckMessage where
  mTypeFlags : Nat
  remLen : Nat
  packetID : Nat
  returnCodes : List Nat
  deriving DecidableEq, Repr

/-- `NewSubAckMessage`: `setType(SUBACK)` yields type+flags byte `0x90`. -/
def newSubAckMessage : SubAckMessage :=
  { mTypeFlags := 0x90, remLen := 0, packetID := 0, returnCodes := [] }

/-- Modelled from the spec: `QosType.IsValidFull` (the QosType methods are
not among the provided source files).  Per spec §3/§6 a SUBACK return code
is valid iff it is 0, 1, 2 or 0x80 (failure). -/
def isValidFull (c : Nat) : Bool :=
  c == 0 || c == 1 || c == 2 || c == 0x80

/-- `SubAckMessage.AddReturnCodes` acting on the return-code list: appends
codes one at a time, stopping with `ErrInvalidReturnCode` at the first code
that is not `IsValidFull`. -/
def addReturnCodes (rc : List Nat) (ret : List Nat) : List Nat × Option Err :=
  match ret with
  | [] => (rc, none)
  | c :: rest =>
    if isValidFull c then addReturnCodes (rc ++ [c]) rest
    else (rc, some .invalidReturnCode)

/-- `SubAckMessage.AddReturnCodes` on the message. -/
def subAckAddReturnCodes (msg : SubAckMessage) (ret : List Nat) :
    SubAckMessage × Option Err :=
  ({ msg with returnCodes := (addReturnCodes msg.returnCodes ret).1 },
   (addReturnCodes msg.returnCodes ret).2)

/-- The return-code validation loop at the end of `SubAckMessage.decode`:
the first invalid code yields `ErrInvalidReturnCode`. -/
def checkCodes : List Nat → Option Err
  | [] => none
  | c :: rest => if isValidFull c then checkCodes rest else some .invalidReturnCode

/-- The in-place update `msg.returnCodes[i] = q` for each byte of the decoded
slice: overwrites a prefix of `old` with `new` (the caller guarantees
`new.length ≤ old.length`, as the Go code does after its `make`). -/
def overwriteInto : List Nat → List Nat → List Nat
  | old, [] => old
  | [], _ :: _ => []
  | _ :: old, q :: new => q :: overwriteInto old new

/-- `SubAckMessage.decode`: header decode, unguarded packet-ID read, then
`l := int(msg.remLen) - (total - hn)` and the slice `src[total : total+l]`
— a negative `l` (declared remaining length < 2) or an out-of-bounds end
makes the Go slice expression panic. -/
def subAckDecode (msg : SubAckMessage) (src : List Nat) :
    GoResult (SubAckMessage × Nat × Option Err) :=
  match headerDecode src with
  | .error (n, e) => .ret (msg, n, some e)
  | .ok (hd, hn) =>
    match readUint16 (src.drop hn) with
    | .panics => .panics
    | .ret pid =>
      let total := hn + 2
      let l : Int := (hd.remLen : Int) - ((total : Int) - (hn : Int))
      let rcs0 := if (msg.returnCodes.length : Int) < l then List.replicate l.toNat 0
                  else msg.returnCodes
      if l < 0 then .panics
      else if src.length < total + l.toNat then .panics
      else
        let rcs := overwriteInto rcs0 ((src.drop total).take l.toNat)
        .ret ({ mTypeFlags := hd.mTypeFlags, remLen := hd.remLen, packetID := pid,
                returnCodes := rcs },
              total + rcs.length, checkCodes rcs)

/-- `SubAckMessage.size`: packet ID plus one byte per return code. -/
def subAckBodySize (msg : SubAckMessage) : Nat := 2 + msg.returnCodes.length

/-- `SubAckMessage.preEncode`: fails `ErrPackedIDZero` when the packet ID is
still the zero sentinel, else writes header, packet ID and return codes. -/
def subAckPreEncode (msg : SubAckMessage) : List Nat × Nat × Option Err :=
  if msg.packetID = 0 then ([], 0, some .packedIDZero)
  else
    let out := headerEncode { mTypeFlags := msg.mTypeFlags, remLen := subAckBodySize msg }
        ++ itob16 msg.packetID ++ msg.returnCodes
    (out, out.length, none)

/-- `SubAckMessage.Encode`: checks the destination against `Size()` and
delegates to `preEncode`. -/
def subAckEncode (msg : SubAckMessage) (dstLen : Nat) : List Nat × Nat × Option Err :=
  if dstLen < fullSize (subAckBodySize msg) then
    ([], fullSize (subAckBodySize msg), some .insufficientBufferSize)
  else subAckPreEncode msg

/-! ## UNSUBACK (src/unnamed/part_003, an older-revision message API where
the packet ID is kept as a raw byte slice and the header carries
`dirty`/`dBuf` state) -/

/-- `UnSubAckMessage` of the older revision: type+flags byte, remaining
length, the packet ID as a raw 2-byte slice, the `dirty` flag and the
decoded buffer `dBuf`. -/
structure UnSubAckMessage where
  mTypeFlags : Nat
  remLen : Nat
  packetID : List Nat
  dirty : Bool
  dBuf : List Nat
  deriving DecidableEq, Repr

/-- A freshly constructed UNSUBACK message: `SetType(UNSUBACK)` yields
type+flags byte `0xB0`; the packet ID slice is empty.  The `dirty` flag is
taken as a parameter since the header code that initialises it is not among
the provided source files. -/
def mkUnSubAck (dirty : Bool) : UnSubAckMessage :=
  { mTypeFlags := 0xB0, remLen := 0, packetID := [], dirty := dirty, dBuf := [] }

/-- `UnSubAckMessage.Len`: decoded messages report their buffer length;
dirty messages set the remaining length to `msgLen() = 2` and add the header
length. -/
def unSubAckLen (msg : UnSubAckMessage) : Nat :=
  if ¬ msg.dirty then msg.dBuf.length
  else 1 + (encodeVarint 2).length + 2

/-- `UnSubAckMessage.Encode`: buffer-size check against `Len()`; a clean
message copies `dBuf`; a dirty message writes the header and then copies the
packet-ID slice, substituting `0, 0` when the copy transferred fewer than 2
bytes.  There is no packet-ID-zero check on this path. -/
def unSubAckEncode (msg : UnSubAckMessage) (dstLen : Nat) : List Nat × Nat × Option Err :=
  if dstLen < unSubAckLen msg then
    ([], unSubAckLen msg, some .insufficientBufferSize)
  else if ¬ msg.dirty then (msg.dBuf, msg.dBuf.length, none)
  else
    let hdr := headerEncode { mTypeFlags := msg.mTypeFlags, remLen := 2 }
    let pidBytes := if msg.packetID.length < 2 then [0, 0] else msg.packetID.take 2
    (hdr ++ pidBytes, hdr.length + 2, none)

/-! ## boltdb persistence provider (src/unnamed/part_000, package boltdb)

Buckets are modelled as association lists.  A message record is the
key-value content of a per-message bucket.  Bolt iterates bucket keys in
lexicographic byte order; `sortOrdered` below reproduces that ordering
(for the 8-byte big-endian sequence keys produced by `itob64`, lexicographic
byte order coincides with numeric order of the sequence numbers, so those
buckets are modelled with their `Nat` sequence keys). -/

/-- A stored message record: the key-value pairs of a per-message bucket. -/
abbrev MsgRec := List (String × List Nat)

/-- Lexicographic order on byte strings, as bolt orders bucket keys. -/
def bytesLe : List Nat → List Nat → Bool
  | [], _ => true
  | _ :: _, [] => false
  | a :: as, b :: bs => if a < b then true else if a = b then bytesLe as bs else false

/-- Key order on `String` keys via their character codes. -/
def strLe (a b : String) : Bool :=
  bytesLe (a.toList.map Char.toNat) (b.toList.map Char.toNat)

/-- Insert into a list sorted by `le`. -/
def insertOrdered (le : α → α → Bool) (e : α) : List α → List α
  | [] => [e]
  | f :: rest => if le e f then e :: f :: rest else f :: insertOrdered le e rest

/-- Insertion sort by `le`; models a bolt cursor / `ForEach` visiting the
entries of a bucket in key order. -/
def sortOrdered (le : α → α → Bool) : List α → List α
  | [] => []
  | e :: rest => insertOrdered le e (sortOrdered le rest)

/-- Record-field order: compare the `String` keys. -/
def keyLe (a b : String × List Nat) : Bool := strLe a.1 b.1

/-- Sequence-key order for buckets keyed by `itob64` sequence numbers. -/
def seqLe (a b : Nat × MsgRec) : Bool := a.1 ≤ b.1

/-- The messages the persistence layer serializes (spec §6): PUBLISH with
packet ID, QoS, topic and payload, and PUBREL with packet ID.  `putMsg`'s
type switch projects exactly these fields. -/
inductive StoredMsg where
  | publish (packetID qos : Nat) (topic : List Nat) (payload : List Nat)
  | pubrel (packetID : Nat)
  deriving DecidableEq, Repr

/-- `msg.Type()` byte: PUBLISH = 3, PUBREL = 6. -/
def msgTypeByte : StoredMsg → Nat
  | .publish _ _ _ _ => 3
  | .pubrel _ => 6

/-- `msg.PacketID()`. -/
def msgPID : StoredMsg → Nat
  | .publish pid _ _ _ => pid
  | .pubrel pid => pid

/-- `putMsg`: puts `type`, then `id` when the packet ID is nonzero, then for
PUBLISH also `qos`, `topic` and (when nonempty) `payload`; PUBREL has
nothing more to store. -/
def putMsg (m : StoredMsg) : MsgRec :=
  [("type", [msgTypeByte m])]
  ++ (if msgPID m ≠ 0 then [("id", itob16 (msgPID m))] else [])
  ++ (match m with
      | .publish _ q t p =>
        [("qos", [q]), ("topic", t)] ++ (if p ≠ [] then [("payload", p)] else [])
      | .pubrel _ => [])

/-- `message.Type.NewMessage` restricted to the two packet types the
persistence layer stores (spec §6): a fresh zero-valued message for PUBLISH
and PUBREL, `ErrInvalidMessageType` otherwise (in particular for the
reserved type byte 0). -/
def newMessageOfType (b : Nat) : Except Err StoredMsg :=
  if b = 3 then .ok (.publish 0 0 [] [])
  else if b = 6 then .ok (.pubrel 0)
  else .error .invalidMessageType

/-- Modelled from the spec: `PublishMessage.SetTopic` validation (the
PublishMessage source is not among the provided files).  Per spec §3 a
PUBLISH topic must not contain the wildcard characters `#` (35) and
`+` (43). -/
def validTopic (t : List Nat) : Bool := t.all (fun c => c ≠ 35 && c ≠ 43)

/-- One iteration of the `packBuk.ForEach` callback in `getMsgs`: the field
switch only reconstructs `*message.PublishMessage` fields (`id`, `topic`,
`payload`, `qos`); every other message type — in particular PUBREL — falls
through and keeps the freshly constructed zero values.  `SetTopic` and
`SetQoS` validation is modelled from the spec (§3: QoS valid iff ≤ 2). -/
def applyField (m : StoredMsg) (name : String) (val : List Nat) :
    GoResult (Except Err StoredMsg) :=
  match m with
  | .publish pid q t p =>
    if name == "id" then
      match readUint16 val with
      | .panics => .panics
      | .ret v => .ret (.ok (.publish v q t p))
    else if name == "topic" then
      if validTopic val then .ret (.ok (.publish pid q val p))
      else .ret (.error .invalidTopic)
    else if name == "payload" then .ret (.ok (.publish pid q t val))
    else if name == "qos" then
      match val with
      | [] => .panics
      | v :: _ => if v ≤ 2 then .ret (.ok (.publish pid v t p)) else .ret (.error .invalidQoS)
    else .ret (.ok m)
  | .pubrel _ => .ret (.ok m)

/-- The full `packBuk.ForEach` loop over the record's fields (already in
bolt key order); an error aborts the iteration. -/
def applyFields (m : StoredMsg) : MsgRec → GoResult (Except Err StoredMsg)
  | [] => .ret (.ok m)
  | (k, v) :: rest =>
    match applyField m k v with
    | .panics => .panics
    | .ret (.error e) => .ret (.error e)
    | .ret (.ok m2) => applyFields m2 rest

/-- First-match lookup of a bucket key. -/
def lookupKey (l : List (String × α)) (k : String) : Option α :=
  match l with
  | [] => none
  | e :: rest => if e.1 == k then some e.2 else lookupKey rest k

/-- Replace the value at a key, appending when absent (bucket `Put` /
`CreateBucketIfNotExists`). -/
def updateKey (l : List (String × α)) (k : String) (v : α) : List (String × α) :=
  match l with
  | [] => [(k, v)]
  | e :: rest => if e.1 == k then (k, v) :: rest else e :: updateKey rest k v

/-- The per-message reconstruction step inside `getMsgs`: `Get("type")`
(`tmp[0]` panics when the field is missing or empty), `NewMessage`, then the
field `ForEach` in key order. -/
def getMsg (r : MsgRec) : GoResult (Except Err StoredMsg) :=
  match lookupKey r "type" with
  | none => .panics
  | some [] => .panics
  | some (tb :: _) =>
    match newMessageOfType tb with
    | .error e => .ret (.error e)
    | .ok m0 => applyFields m0 (sortOrdered keyLe r)

/-- A bucket keyed by `NextSequence` values (`itob64` keys): the last issued
sequence number and the entries. -/
structure SeqBucket where
  nextSeq : Nat
  entries : List (Nat × MsgRec)
  deriving DecidableEq, Repr

def emptySeq : SeqBucket := { nextSeq := 0, entries := [] }

/-- One `NextSequence` + `CreateBucket` + `putMsg` step of a store loop. -/
def seqPut (b : SeqBucket) (r : MsgRec) : SeqBucket :=
  { nextSeq := b.nextSeq + 1, entries := b.entries ++ [(b.nextSeq + 1, r)] }

/-- The store loop over a list of records. -/
def seqPutAll (b : SeqBucket) : List MsgRec → SeqBucket
  | [] => b
  | r :: rs => seqPutAll (seqPut b r) rs

/-- The `getMsgs` cursor loop over records in key order; the first
reconstruction error aborts with that error. -/
def getMsgsList : List MsgRec → GoResult (Except Err (List StoredMsg))
  | [] => .ret (.ok [])
  | r :: rest =>
    match getMsg r with
    | .panics => .panics
    | .ret (.error e) => .ret (.error e)
    | .ret (.ok m) =>
      match getMsgsList rest with
      | .panics => .panics
      | .ret (.error e) => .ret (.error e)
      | .ret (.ok ms) => .ret (.ok (m :: ms))

/-- `getMsgs` on a sequence bucket: iterate the entries in key order. -/
def getMsgs (b : SeqBucket) : GoResult (Except Err (List StoredMsg)) :=
  getMsgsList ((sortOrdered seqLe b.entries).map (fun e => e.2))

/-- The per-session bucket: optional `subscriptions` bucket and optional
`messages` bucket (direction name → sequence bucket). -/
structure SessionBucket where
  subs : Option SeqBucket
  msgs : Option (List (String × SeqBucket))
  deriving DecidableEq, Repr

/-- The provider state: the shutdown gate (`done` channel closed) plus the
top-level `sessions` and `retained` buckets (absent until created). -/
structure BoltState where
  done : Bool
  sessions : Option (List (String × SessionBucket))
  retained : Option SeqBucket
  deriving DecidableEq, Repr

/-- An open provider holding exactly one freshly created session. -/
def freshSessionState (id : String) : BoltState :=
  { done := false,
    sessions := some [(id, { subs := none, msgs := none })],
    retained := none }

/-- `impl.Sessions`. -/
def boltSessionsHandle (st : BoltState) : Except Err Unit :=
  if st.done then .error .notOpen else .ok ()

/-- `impl.Retained`. -/
def boltRetainedHandle (st : BoltState) : Except Err Unit :=
  if st.done then .error .notOpen else .ok ()

/-- `impl.Shutdown`: fails `ErrNotOpen` when already shut down, else closes
the done channel (after which `wgTx.Wait()` and `db.Close()` run) and
returns the close result. -/
def boltShutdown (st : BoltState) : Except Err BoltState :=
  if st.done then .error .notOpen
  else .ok { st with done := true }

/-- `sessions.New`: creates the session bucket, mapping `bolt.ErrBucketExists`
to `ErrAlreadyExists` (in the pure state model bucket creation can only fail
because the bucket exists; `sessionsNewOutcome` below models the full
error-mapping tail of the source). -/
def sessionsNew (st : BoltState) (id : String) : Except Err BoltState :=
  if st.done then .error .notOpen
  else
    let sesB := st.sessions.getD []
    match lookupKey sesB id with
    | some _ => .error .alreadyExists
    | none => .ok { st with sessions := some (sesB ++ [(id, { subs := none, msgs := none })]) }

/-- `sessions.Get`. -/
def sessionsGet (st : BoltState) (id : String) : Except Err String :=
  if st.done then .error .notOpen
  else match st.sessions with
    | none => .error .notFound
    | some sesB =>
      match lookupKey sesB id with
      | none => .error .notFound
      | some _ => .ok id

/-- `sessions.GetAll`. -/
def sessionsGetAll (st : BoltState) : Except Err (List String) :=
  if st.done then .error .notOpen
  else match st.sessions with
    | none => .error .notFound
    | some sesB => .ok (sesB.map (fun e => e.1))

/-- `sessions.Delete`: any error inside the update (missing sessions bucket,
missing session) is reported as `ErrNotFound`. -/
def sessionsDelete (st : BoltState) (id : String) : Except Err BoltState :=
  if st.done then .error .notOpen
  else match st.sessions with
    | none => .error .notFound
    | some sesB =>
      match lookupKey sesB id with
      | none => .error .notFound
      | some _ => .ok { st with sessions := some (sesB.filter (fun e => ¬ e.1 == id)) }

/-- `session.Subscriptions`. -/
def sessionSubsHandle (st : BoltState) : Except Err Unit :=
  if st.done then .error .notOpen else .ok ()

/-- `session.Messages`. -/
def sessionMsgsHandle (st : BoltState) : Except Err Unit :=
  if st.done then .error .notOpen else .ok ()

/-- `session.ID`. -/
def sessionID (st : BoltState) (id : String) : Except Err String :=
  if st.done then .error .notOpen else .ok id

/-- `subscriptions.Add`: per (topic, QoS) pair a fresh sequence sub-bucket
holding the `topic` and `qos` fields (the Go `map` input is modelled as an
association list). -/
def subsAdd (st : BoltState) (id : String) (subs : List (List Nat × Nat)) :
    Except Err BoltState :=
  if st.done then .error .notOpen
  else match st.sessions with
    | none => .error .notFound
    | some sesB =>
      match lookupKey sesB id with
      | none => .error .notFound
      | some sb =>
        let bucket := sb.subs.getD emptySeq
        let bucket2 := seqPutAll bucket
          (subs.map (fun s => [("topic", s.1), ("qos", [s.2])]))
        let sesB2 := updateKey sesB id { sb with subs := some bucket2 }
        .ok { st with sessions := some sesB2 }

/-- `subscriptions.Delete`: `DeleteBucket` returns the raw bolt error when
the subscriptions bucket is absent. -/
def subsDelete (st : BoltState) (id : String) : Except Err BoltState :=
  if st.done then .error .notOpen
  else match st.sessions with
    | none => .error .notFound
    | some sesB =>
      match lookupKey sesB id with
      | none => .error .notFound
      | some sb =>
        match sb.subs with
        | none => .error .boltBucketNotFound
        | some _ =>
          let sesB2 := updateKey sesB id { sb with subs := none }
          .ok { st with sessions := some sesB2 }

/-- `messages.Store`: navigates to the session, creates the `messages`
bucket and the direction bucket when absent, then runs the
`NextSequence`/`CreateBucket`/`putMsg` loop. -/
def messagesStore (st : BoltState) (id dir : String) (msgs : List StoredMsg) :
    Except Err BoltState :=
  if st.done then .error .notOpen
  else match st.sessions with
    | none => .error .notFound
    | some sesB =>
      match lookupKey sesB id with
      | none => .error .notFound
      | some sb =>
        let mb := sb.msgs.getD []
        let db := (lookupKey mb dir).getD emptySeq
        let db2 := seqPutAll db (msgs.map putMsg)
        let sesB2 := updateKey sesB id { sb with msgs := some (updateKey mb dir db2) }
        .ok { st with sessions := some sesB2 }

/-- The per-direction half of `messages.Load`: a missing direction bucket
leaves the list empty, and — the `msg.In.Messages, _ = getMsgs(dirBuck)`
assignment — a `getMsgs` error is discarded, leaving the nil list. -/
def dirMsgs (mb : List (String × SeqBucket)) (dir : String) : GoResult (List StoredMsg) :=
  match lookupKey mb dir with
  | none => .ret []
  | some db =>
    match getMsgs db with
    | .panics => .panics
    | .ret (.ok l) => .ret l
    | .ret (.error _) => .ret []

/-- `messages.Load`: returns the reconstructed `in` and `out` queues. -/
def messagesLoad (st : BoltState) (id : String) :
    GoResult (Except Err (List StoredMsg × List StoredMsg)) :=
  if st.done then .ret (.error .notOpen)
  else match st.sessions with
    | none => .ret (.error .notFound)
    | some sesB =>
      match lookupKey sesB id with
      | none => .ret (.error .notFound)
      | some sb =>
        match sb.msgs with
        | none => .ret (.error .notFound)
        | some mb =>
          match dirMsgs mb "in" with
          | .panics => .panics
          | .ret ins =>
            match dirMsgs mb "out" with
            | .panics => .panics
            | .ret outs => .ret (.ok (ins, outs))

/-- `messages.Delete`: `DeleteBucket` returns the raw bolt error when the
messages bucket is absent. -/
def messagesDelete (st : BoltState) (id : String) : Except Err BoltState :=
  if st.done then .error .notOpen
  else match st.sessions with
    | none => .error .notFound
    | some sesB =>
      match lookupKey sesB id with
      | none => .error .notFound
      | some sb =>
        match sb.msgs with
        | none => .error .boltBucketNotFound
        | some _ =>
          let sesB2 := updateKey sesB id { sb with msgs := none }
          .ok { st with sessions := some sesB2 }

/-- `retained.Load`. -/
def retainedLoad (st : BoltState) : GoResult (Except Err (List StoredMsg)) :=
  if st.done then .ret (.error .notOpen)
  else match st.retained with
    | none => .ret (.error .notFound)
    | some b => getMsgs b

/-- `retained.Store`. -/
def retainedStore (st : BoltState) (msgs : List StoredMsg) : Except Err BoltState :=
  if st.done then .error .notOpen
  else
    let b := st.retained.getD emptySeq
    .ok { st with retained := some (seqPutAll b (msgs.map putMsg)) }

/-- `retained.Delete`: maps `bolt.ErrBucketNotFound` to `ErrNotFound`. -/
def retainedDelete (st : BoltState) : Except Err BoltState :=
  if st.done then .error .notOpen
  else match st.retained with
    | none => .error .notFound
    | some _ => .ok { st with retained := none }

/-- The scenario of claim C5: `messages.Store` followed by `messages.Load`. -/
def storeThenLoad (st : BoltState) (id dir : String) (msgs : List StoredMsg) :
    GoResult (Except Err (List StoredMsg × List StoredMsg)) :=
  match messagesStore st id dir msgs with
  | .error e => .ret (.error e)
  | .ok st2 => messagesLoad st2 id

/-! ## mem persistence provider (src/unnamed/part_000, package mem) -/

/-- The in-memory provider state: only the shutdown gate matters to its
public surface. -/
structure MemState where
  done : Bool
  deriving DecidableEq, Repr

/-- `impl.System` (mem). -/
def memSystem (st : MemState) : Except Err Unit :=
  if st.done then .error .notOpen else .ok ()

/-- `impl.Sessions` (mem). -/
def memSessionsHandle (st : MemState) : Except Err Unit :=
  if st.done then .error .notOpen else .ok ()

/-- `impl.Retained` (mem). -/
def memRetainedHandle (st : MemState) : Except Err Unit :=
  if st.done then .error .notOpen else .ok ()

/-- `impl.Shutdown` (mem). -/
def memShutdown (st : MemState) : Except Err MemState :=
  if st.done then .error .notOpen
  else .ok { done := true }

/-! ## Uniform view of the public operations, for the shutdown-gate claim -/

/-- A public operation on the boltdb provider or an object derived from it. -/
inductive BoltOp where
  | sessionsHandle
  | retainedHandle
  | shutdown
  | sNew (id : String)
  | sGet (id : String)
  | sGetAll
  | sDelete (id : String)
  | sesSubs
  | sesMsgs
  | sesID (id : String)
  | subAdd (id : String) (subs : List (List Nat × Nat))
  | subGet (id : String)
  | subDelete (id : String)
  | mStore (id dir : String) (msgs : List StoredMsg)
  | mLoad (id : String)
  | mDelete (id : String)
  | rLoad
  | rStore (msgs : List StoredMsg)
  | rDelete

/-! ## subscriptions.Get: the nested double iteration (claim C9) -/

/-- `message.TopicsQoS`: a Go map from topic to QoS. -/
def SubMap := List Nat → Option Nat

/-- The map assignment `res[t] = q`. -/
def assignSub (m : SubMap) (t : List Nat) (q : Nat) : SubMap :=
  fun x => if x = t then some q else m x

def emptySubMap : SubMap := fun _ => none

/-- The inner `subBuck.ForEach` of `subscriptions.Get`: the switch collects
the `topic` and `qos` fields into the zero-initialised locals; `v[0]` panics
when the `qos` value is empty.  Fields are visited in bolt key order. -/
def extractSubFold (acc : List Nat × Nat) : MsgRec → GoResult (List Nat × Nat)
  | [] => .ret acc
  | (name, v) :: rest =>
    if name == "topic" then extractSubFold (v, acc.2) rest
    else if name == "qos" then
      match v with
      | [] => .panics
      | q :: _ => extractSubFold (acc.1, q) rest
    else extractSubFold acc rest

/-- Extract `(topic, qos)` from one per-subscription sub-bucket. -/
def extractSub (r : MsgRec) : GoResult (List Nat × Nat) :=
  extractSubFold ([], 0) (sortOrdered keyLe r)

/-- The inner cursor loop of `subscriptions.Get`: a full scan over all
sub-buckets assigning `res[t] = q` for each. -/
def innerScan (all : List MsgRec) (res : SubMap) : GoResult SubMap :=
  match all with
  | [] => .ret res
  | r :: rest =>
    match extractSub r with
    | .panics => .panics
    | .ret tq => innerScan rest (assignSub res tq.1 tq.2)

/-- The outer `bucket.ForEach` of `subscriptions.Get`: its callback ignores
its parameters and re-runs the full inner scan once per bucket entry. -/
def outerScan (outer all : List MsgRec) (res : SubMap) : GoResult SubMap :=
  match outer with
  | [] => .ret res
  | _ :: rest =>
    match innerScan all res with
    | .panics => .panics
    | .ret res2 => outerScan rest all res2

/-- `subscriptions.Get` as implemented: the nested double iteration over the
sub-buckets of the subscriptions bucket (in cursor key order). -/
def subsGetDouble (entries : List MsgRec) : GoResult SubMap :=
  outerScan entries entries emptySubMap

/-- The straightforward single-pass iteration over the subscription entries,
following the spec's words (§9, open question). -/
def subsGetSingle (entries : List MsgRec) : GoResult SubMap :=
  innerScan entries emptySubMap

/-- `subscriptions.Get` on the provider state. -/
def subsGet (st : BoltState) (id : String) : GoResult (Except Err SubMap) :=
  if st.done then .ret (.error .notOpen)
  else match st.sessions with
    | none => .ret (.error .notFound)
    | some sesB =>
      match lookupKey sesB id with
      | none => .ret (.error .notFound)
      | some sb =>
        match sb.subs with
        | none => .ret (.error .notFound)
        | some bucket =>
          match subsGetDouble ((sortOrdered seqLe bucket.entries).map (fun e => e.2)) with
          | .panics => .panics
          | .ret res => .ret (.ok res)

/-- Error component of an `Except` result. -/
def errOf : Except Err α → Option Err
  | .error e => some e
  | .ok _ => none

/-- Error component of a `GoResult (Except _ _)`. -/
def errOfGo : GoResult (Except Err α) → Option Err
  | .panics => none
  | .ret r => errOf r

/-- Run a public boltdb operation and keep only its error component. -/
def runBoltErr (op : BoltOp) (st : BoltState) : Option Err :=
  match op with
  | .sessionsHandle => errOf (boltSessionsHandle st)
  | .retainedHandle => errOf (boltRetainedHandle st)
  | .shutdown => errOf (boltShutdown st)
  | .sNew id => errOf (sessionsNew st id)
  | .sGet id => errOf (sessionsGet st id)
  | .sGetAll => errOf (sessionsGetAll st)
  | .sDelete id => errOf (sessionsDelete st id)
  | .sesSubs => errOf (sessionSubsHandle st)
  | .sesMsgs => errOf (sessionMsgsHandle st)
  | .sesID id => errOf (sessionID st id)
  | .subAdd id subs => errOf (subsAdd st id subs)
  | .subGet id => errOfGo (subsGet st id)
  | .subDelete id => errOf (subsDelete st id)
  | .mStore id dir msgs => errOf (messagesStore st id dir msgs)
  | .mLoad id => errOfGo (messagesLoad st id)
  | .mDelete id => errOf (messagesDelete st id)
  | .rLoad => errOfGo (retainedLoad st)
  | .rStore msgs => errOf (retainedStore st msgs)
  | .rDelete => errOf (retainedDelete st)

/-- A public operation on the mem provider. -/
inductive MemOp where
  | system
  | sessionsHandle
  | retainedHandle
  | shutdown

/-- Run a public mem operation and keep only its error component. -/
def runMemErr (op : MemOp) (st : MemState) : Option Err :=
  match op with
  | .system => errOf (memSystem st)
  | .sessionsHandle => errOf (memSessionsHandle st)
  | .retainedHandle => errOf (memRetainedHandle st)
  | .shutdown => errOf (memShutdown st)

/-! ## The error-mapping tail of sessions.New and a corrupted store
(claim C7) -/

/-- Errors the embedded bolt library can return from a bucket-creation
transaction. -/
inductive BoltErr where
  | bucketExists
  | bucketNotFound
  | txNotWritable
  deriving DecidableEq, Repr

/-- The error-handling tail of `sessions.New`: the `Update` callback's error
is only mapped when it equals `bolt.ErrBucketExists`; any other non-nil
error falls through to `return &ses, nil`.  The components are (session
handle returned?, error returned). -/
def sessionsNewOutcome (updateErr : Option BoltErr) : Bool × Option Err :=
  match updateErr with
  | some .bucketExists => (false, some .alreadyExists)
  | _ => (true, none)

/-- An open provider holding one session whose `in` direction bucket
contains a record with the reserved type byte 0, on which `getMsg` fails. -/
def corruptState : BoltState :=
  { done := false,
    sessions := some [("s",
      { subs := none,
        msgs := some [("in", { nextSeq := 1, entries := [(1, [("type", [0])])] })] })],
    retained := none }

/-! ## The in-flight-transaction accounting of the boltdb backend
(claim C8): event traces of the operation bodies -/

/-- Synchronisation-relevant events in the body of a boltdb provider
operation. -/
inductive TxEvent where
  | lockAcquire
  | lockRelease
  | doneCheck
  | doneClose
  | wgAdd
  | wgDone
  | wgWait
  | beginTx
  | endTx
  | dbClose
  deriving DecidableEq, Repr

/-- Body of `impl.Shutdown`: lock, done-channel check and close,
`wgTx.Wait()`, `db.Close()`, unlock. -/
def shutdownTrace : List TxEvent :=
  [.lockAcquire, .doneCheck, .doneClose, .wgWait, .dbClose, .lockRelease]

/-- Body of `sessions.New`: done-channel check, then the `Update`
transaction.  No `wgTx.Add`/`wgTx.Done` appears anywhere in the body. -/
def sessionsNewTrace : List TxEvent := [.doneCheck, .beginTx, .endTx]

/-- Body of `sessions.Get`/`GetAll`/`Delete` and of the `session`-derived
operations that run a transaction (`subscriptions.Add/Get/Delete`,
`messages.Store/Load/Delete`, `retained.Load/Store/Delete`): done-channel
check, then the `View`/`Update` transaction; none of them touches `wgTx`. -/
def txOpTrace : List TxEvent := [.doneCheck, .beginTx, .endTx]

/-! ## Auxiliary definitions used by the proofs -/

/-- No entry of the subscription bucket makes the field extraction panic. -/
def scanOk (all : List MsgRec) : Prop :=
  ∀ r ∈ all, ∃ tq, extractSub r = .ret tq

/-- Pure version of the inner cursor scan, defined for buckets whose
extraction does not panic. -/
def applyAll (all : List MsgRec) (res : SubMap) : SubMap :=
  match all with
  | [] => res
  | r :: rest =>
    match extractSub r with
    | .panics => applyAll rest res
    | .ret tq => applyAll rest (assignSub res tq.1 tq.2)

/-- The last (in scan order) QoS assigned to topic `x` by the bucket. -/
def lastTQ : List MsgRec → List Nat → Option Nat
  | [], _ => none
  | r :: rest, x =>
    match lastTQ rest x with
    | some q => some q
    | none =>
      match extractSub r with
      | .ret tq => if x = tq.1 then some tq.2 else none
      | .panics => none

/-- What `getMsgs` reconstructs from a record written by `putMsg`: PUBLISH
survives intact, while PUBREL keeps the zero packet ID of the freshly
constructed message because the field switch in `getMsgs` has no PUBREL
case. -/
def loadImage : StoredMsg → StoredMsg
  | .publish pid q t p => .publish pid q t p
  | .pubrel _ => .pubrel 0

/-- The messages the codec can actually produce: a 16-bit packet ID, a valid
QoS and a wildcard-free topic for PUBLISH. -/
def validStored : StoredMsg → Prop
  | .publish pid q t _ => pid < 65536 ∧ q ≤ 2 ∧ validTopic t = true
  | .pubrel _ => True

/-- Sequence numbering of appended records, starting at `s`. -/
def numberFrom (s : Nat) : List MsgRec → List (Nat × MsgRec)
  | [] => []
  | r :: rs => (s, r) :: numberFrom (s + 1) rs

/-! ## Helper lemmas -/

theorem encodeVarintAux_congr : ∀ f1 f2 n : Nat, n < f1 → n < f2 →
    encodeVarintAux f1 n = encodeVarintAux f2 n := by
  intro f1
  induction f1 with
  | zero => intro f2 n h1 _; omega
  | succ f1 ih =>
    intro f2 n h1 h2
    cases f2 with
    | zero => omega
    | succ f2 =>
      simp only [encodeVarintAux]
      by_cases hn : n < 128
      · simp [hn]
      · simp only [if_neg hn]
        have hd1 : n / 128 < f1 := by omega
        have hd2 : n / 128 < f2 := by omega
        rw [ih f2 (n / 128) hd1 hd2]

theorem encodeVarint_unfold (n : Nat) :
    encodeVarint n = if n < 128 then [n] else (n % 128 + 128) :: encodeVarint (n / 128) := by
  by_cases hn : n < 128
  · simp [encodeVarint, encodeVarintAux, hn]
  · simp only [encodeVarint, encodeVarintAux, if_neg hn]
    have h1 : n / 128 < n := by omega
    exact congrArg _ (encodeVarintAux_congr n (n / 128 + 1) (n / 128) (by omega) (by omega))

theorem encodeVarint_length : ∀ k n : Nat, 1 ≤ k → n < 128 ^ k →
    (encodeVarint n).length ≤ k := by
  intro k
  induction k with
  | zero => omega
  | succ k ih =>
    intro n _ hub
    rw [encodeVarint_unfold]
    by_cases hn : n < 128
    · simp [hn]
    · simp only [if_neg hn, List.length_cons]
      have hk : 1 ≤ k := by
        by_contra hc
        have : k = 0 := by omega
        subst this
        simp [pow_succ, pow_zero] at hub
        omega
      have : n / 128 < 128 ^ k := by
        rw [Nat.div_lt_iff_lt_mul (by omega)]
        calc n < 128 ^ (k + 1) := hub
          _ = 128 ^ k * 128 := by ring
      have := ih (n / 128) hk this
      omega

theorem decodeVarintFrom_encode : ∀ n : Nat, ∀ fuel : Nat, ∀ rest : List Nat,
    (encodeVarint n).length ≤ fuel →
    decodeVarintFrom (encodeVarint n ++ rest) fuel = some (n, (encodeVarint n).length) := by
  intro n
  induction n using Nat.strong_induction_on with
  | _ n ih =>
    intro fuel rest hf
    rw [encodeVarint_unfold] at hf ⊢
    by_cases hn : n < 128
    · simp only [if_pos hn, List.length_cons, List.length_nil] at hf ⊢
      cases fuel with
      | zero => omega
      | succ fuel => simp [decodeVarintFrom, hn]
    · simp only [if_neg hn, List.length_cons] at hf ⊢
      cases fuel with
      | zero => omega
      | succ fuel =>
        have hlt : n / 128 < n := by omega
        have htail : (encodeVarint (n / 128)).length ≤ fuel := by omega
        simp only [List.cons_append, decodeVarintFrom]
        rw [if_neg (by omega)]
        simp only [List.append_eq]
        rw [ih (n / 128) hlt fuel rest htail]
        have hm : (n % 128 + 128) % 128 = n % 128 := by omega
        have hv : n % 128 + 128 * (n / 128) = n := by omega
        simp [hm, hv]

theorem overwriteInto_exact : ∀ old new : List Nat, old.length = new.length →
    overwriteInto old new = new := by
  intro old
  induction old with
  | nil =>
    intro new h
    cases new with
    | nil => rfl
    | cons q rest => simp at h
  | cons a old ih =>
    intro new h
    cases new with
    | nil => simp at h
    | cons q rest =>
      simp only [List.length_cons] at h
      simp only [overwriteInto]
      rw [ih rest (by omega)]

theorem checkCodes_eq_all (codes : List Nat) :
    checkCodes codes = if codes.all isValidFull then none else some .invalidReturnCode := by
  induction codes with
  | nil => rfl
  | cons c rest ih =>
    simp only [checkCodes, List.all_cons]
    by_cases hc : isValidFull c
    · simp [hc, ih]
    · simp [hc]

theorem readUint16_itob16 (pid : Nat) (h : pid < 65536) :
    readUint16 (itob16 pid) = .ret pid := by
  simp only [itob16, readUint16]
  congr 1
  omega

theorem headerDecode_append (b0 v : Nat) (body : List Nat)
    (hty : 1 ≤ b0 / 16 ∧ b0 / 16 ≤ 14)
    (hfl : b0 / 16 = 3 ∨ b0 % 16 = defaultFlags (b0 / 16))
    (hv : (encodeVarint v).length ≤ 4)
    (hlen : body.length = v) :
    headerDecode (b0 :: (encodeVarint v ++ body)) =
      .ok ({ mTypeFlags := b0, remLen := v }, 1 + (encodeVarint v).length) := by
  simp only [headerDecode]
  rw [if_neg (by omega)]
  rw [if_neg (by tauto)]
  rw [decodeVarintFrom_encode v 4 body hv]
  dsimp only
  rw [if_neg ?_]
  have : (b0 :: (encodeVarint v ++ body)).length = 1 + (encodeVarint v).length + v := by
    simp [List.length_append, hlen]
    omega
  rw [this]
  omega

theorem subAckDecode_wire (codes : List Nat) (hn : 2 + codes.length ≤ 268435455) :
    subAckDecode newSubAckMessage
      (0x90 :: (encodeVarint (2 + codes.length) ++ (0 :: 7 :: codes))) =
    .ret ({ mTypeFlags := 0x90, remLen := 2 + codes.length, packetID := 7,
            returnCodes := codes },
          1 + (encodeVarint (2 + codes.length)).length + 2 + codes.length,
          if codes.all isValidFull then none else some Err.invalidReturnCode) := by
  have hv : (encodeVarint (2 + codes.length)).length ≤ 4 := by
    apply encodeVarint_length 4 (2 + codes.length) (by omega)
    norm_num
    omega
  have hhd := headerDecode_append 0x90 (2 + codes.length) (0 :: 7 :: codes)
    (by omega) (by right; decide) hv (by simp; omega)
  simp only [subAckDecode]
  rw [hhd]
  have hdrop : (0x90 :: (encodeVarint (2 + codes.length) ++ (0 :: 7 :: codes))).drop
      (1 + (encodeVarint (2 + codes.length)).length) = 0 :: 7 :: codes := by
    rw [Nat.add_comm 1, List.drop_succ_cons, List.drop_left]
  dsimp only
  rw [hdrop]
  have hread : readUint16 (0 :: 7 :: codes) = .ret 7 := by simp [readUint16]
  rw [hread]
  dsimp only
  have hl : ((2 + codes.length : Nat) : Int) -
      (((1 + (encodeVarint (2 + codes.length)).length + 2 : Nat) : Int) -
        ((1 + (encodeVarint (2 + codes.length)).length : Nat) : Int)) = (codes.length : Int) := by
    push_cast
    ring
  rw [hl]
  rw [if_neg (by omega)]
  rw [if_neg ?hbound]
  case hbound =>
    simp only [List.length_cons, List.length_append, Int.toNat_natCast]
    omega
  have hrcs : (if ((newSubAckMessage.returnCodes.length : Nat) : Int) < (codes.length : Int)
      then List.replicate ((codes.length : Int)).toNat 0
      else newSubAckMessage.returnCodes) = List.replicate codes.length 0 := by
    simp only [newSubAckMessage, List.length_nil, Nat.cast_zero, Int.toNat_natCast]
    by_cases h : (0 : Int) < (codes.length : Int)
    · simp [h]
    · have h0 : codes.length = 0 := by omega
      simp [h, h0]
  rw [hrcs]
  have hdrop2 : List.drop (1 + (encodeVarint (2 + codes.length)).length + 2)
      (144 :: (encodeVarint (2 + codes.length) ++ 0 :: 7 :: codes)) = codes := by
    rw [show 1 + (encodeVarint (2 + codes.length)).length + 2 =
        ((encodeVarint (2 + codes.length)).length + 2) + 1 from by omega]
    rw [List.drop_succ_cons]
    rw [show (encodeVarint (2 + codes.length)).length + 2 =
        (encodeVarint (2 + codes.length)).length + 2 from rfl]
    rw [List.drop_append]
    rfl
  rw [Int.toNat_natCast, hdrop2, List.take_length]
  rw [overwriteInto_exact (List.replicate codes.length 0) codes (by simp)]
  rw [checkCodes_eq_all]

theorem innerScan_panics (all : List MsgRec) (h : ¬ scanOk all) :
    ∀ res : SubMap, innerScan all res = .panics := by
  induction all with
  | nil =>
    exfalso
    exact h (by intro r hr; cases hr)
  | cons r rest ih =>
    intro res
    simp only [innerScan]
    cases hex : extractSub r with
    | panics => rfl
    | ret tq =>
      have hrest : ¬ scanOk rest := by
        intro hok
        apply h
        intro r' hr'
        rcases List.mem_cons.mp hr' with h' | h'
        · subst h'; exact ⟨tq, hex⟩
        · exact hok r' h'
      exact ih hrest _

theorem innerScan_ok (all : List MsgRec) (h : scanOk all) :
    ∀ res : SubMap, innerScan all res = .ret (applyAll all res) := by
  induction all with
  | nil => intro res; rfl
  | cons r rest ih =>
    intro res
    obtain ⟨tq, hex⟩ := h r (List.mem_cons_self r rest)
    have hrest : scanOk rest := fun r' hr' => h r' (List.mem_cons_of_mem r hr')
    simp only [innerScan, applyAll, hex]
    exact ih hrest _

theorem applyAll_apply (all : List MsgRec) (res : SubMap) (x : List Nat) :
    applyAll all res x =
      match lastTQ all x with
      | some q => some q
      | none => res x := by
  induction all generalizing res with
  | nil => rfl
  | cons r rest ih =>
    simp only [applyAll, lastTQ]
    cases hex : extractSub r with
    | panics =>
      dsimp only
      rw [ih res]
      cases lastTQ rest x <;> rfl
    | ret tq =>
      dsimp only
      rw [ih (assignSub res tq.1 tq.2)]
      cases lastTQ rest x with
      | some q => rfl
      | none =>
        simp only [assignSub]
        by_cases hx : x = tq.1 <;> simp [hx]

theorem applyAll_idem (all : List MsgRec) (res : SubMap) :
    applyAll all (applyAll all res) = applyAll all res := by
  funext x
  rw [applyAll_apply, applyAll_apply]
  cases lastTQ all x <;> rfl

theorem outerScan_stable (l all : List MsgRec) (S : SubMap)
    (h : innerScan all S = .ret S) : outerScan l all S = .ret S := by
  induction l with
  | nil => rfl
  | cons e rest ih =>
    simp only [outerScan, h]
    exact ih

theorem seqPutAll_entries : ∀ (rs : List MsgRec) (b : SeqBucket),
    (seqPutAll b rs).entries = b.entries ++ numberFrom (b.nextSeq + 1) rs := by
  intro rs
  induction rs with
  | nil => intro b; simp [seqPutAll, numberFrom]
  | cons r rs ih =>
    intro b
    simp only [seqPutAll, numberFrom]
    rw [ih]
    simp [seqPut, List.append_assoc]

theorem numberFrom_chain (rs : List MsgRec) : ∀ s : Nat,
    (numberFrom s rs).Chain' (fun a b => seqLe a b = true) := by
  induction rs with
  | nil => intro s; simp [numberFrom]
  | cons r rs ih =>
    intro s
    cases rs with
    | nil => simp [numberFrom]
    | cons r2 rs2 =>
      simp only [numberFrom]
      refine List.Chain'.cons ?_ ?_
      · simp [seqLe]
      · exact ih (s + 1)

theorem numberFrom_map_snd (rs : List MsgRec) : ∀ s : Nat,
    (numberFrom s rs).map (fun e => e.2) = rs := by
  induction rs with
  | nil => intro s; rfl
  | cons r rs ih => intro s; simp [numberFrom, ih]

theorem sortOrdered_eq_self (le : α → α → Bool) :
    ∀ l : List α, l.Chain' (fun a b => le a b = true) → sortOrdered le l = l := by
  intro l
  induction l with
  | nil => intro _; rfl
  | cons a l ih =>
    intro h
    simp only [sortOrdered]
    rw [ih h.tail]
    cases l with
    | nil => rfl
    | cons b l2 =>
      have hab : le a b = true := (List.chain'_cons.mp h).1
      simp [insertOrdered, hab]

theorem applyFields_cons_ok (m m2 : StoredMsg) (k : String) (v : List Nat)
    (rest : MsgRec) (h : applyField m k v = .ret (.ok m2)) :
    applyFields m ((k, v) :: rest) = applyFields m2 rest := by
  simp only [applyFields, h]

theorem applyFields_pubrel (pid : Nat) : ∀ r : MsgRec,
    applyFields (.pubrel pid) r = .ret (.ok (.pubrel pid)) := by
  intro r
  induction r with
  | nil => rfl
  | cons e rest ih =>
    obtain ⟨k, v⟩ := e
    rw [applyFields_cons_ok (.pubrel pid) (.pubrel pid) k v rest rfl]
    exact ih

theorem getMsg_putMsg_pubrel (pid : Nat) :
    getMsg (putMsg (.pubrel pid)) = .ret (.ok (.pubrel 0)) := by
  by_cases h0 : pid = 0
  · subst h0
    have hrec : putMsg (.pubrel 0) = [("type", [6])] := rfl
    rw [hrec]
    have hget : getMsg [("type", [6])] =
        applyFields (.pubrel 0) (sortOrdered keyLe [("type", [6])]) := rfl
    rw [hget, applyFields_pubrel]
  · have hrec : putMsg (.pubrel pid) = [("type", [6]), ("id", itob16 pid)] := by
      simp [putMsg, msgTypeByte, msgPID, h0]
    rw [hrec]
    have hget : getMsg [("type", [6]), ("id", itob16 pid)] =
        applyFields (.pubrel 0)
          (sortOrdered keyLe [("type", [6]), ("id", itob16 pid)]) := rfl
    rw [hget, applyFields_pubrel]

theorem applyField_id (q : Nat) (t p : List Nat) (pid : Nat) (h : pid < 65536) :
    applyField (.publish 0 q t p) "id" (itob16 pid) = .ret (.ok (.publish pid q t p)) := by
  have hstep : applyField (.publish 0 q t p) "id" (itob16 pid) =
      (match readUint16 (itob16 pid) with
        | .panics => .panics
        | .ret v => .ret (.ok (.publish v q t p))) := rfl
  rw [hstep, readUint16_itob16 pid h]

theorem applyField_qos (pid : Nat) (t p : List Nat) (q : Nat) (h : q ≤ 2) :
    applyField (.publish pid 0 t p) "qos" [q] = .ret (.ok (.publish pid q t p)) := by
  have hstep : applyField (.publish pid 0 t p) "qos" [q] =
      (if q ≤ 2 then .ret (.ok (.publish pid q t p))
       else .ret (.error .invalidQoS)) := rfl
  rw [hstep, if_pos h]

theorem applyField_payload (pid q : Nat) (t old p : List Nat) :
    applyField (.publish pid q t old) "payload" p = .ret (.ok (.publish pid q t p)) := rfl

theorem applyField_topic (pid q : Nat) (p t : List Nat) (h : validTopic t = true) :
    applyField (.publish pid q [] p) "topic" t = .ret (.ok (.publish pid q t p)) := by
  have hstep : applyField (.publish pid q [] p) "topic" t =
      (if validTopic t then .ret (.ok (.publish pid q t p))
       else .ret (.error .invalidTopic)) := rfl
  rw [hstep, if_pos h]

theorem getMsg_putMsg_publish (pid q : Nat) (t p : List Nat)
    (hpid : pid < 65536) (hq : q ≤ 2) (ht : validTopic t = true) :
    getMsg (putMsg (.publish pid q t p)) = .ret (.ok (.publish pid q t p)) := by
  by_cases h0 : pid = 0
  · subst h0
    by_cases hp : p = []
    · subst hp
      have hrec : putMsg (.publish 0 q t []) =
          [("type", [3]), ("qos", [q]), ("topic", t)] := rfl
      rw [hrec]
      have hget : getMsg [("type", [3]), ("qos", [q]), ("topic", t)] =
          applyFields (.publish 0 0 [] [])
            [("qos", [q]), ("topic", t), ("type", [3])] := rfl
      rw [hget]
      rw [applyFields_cons_ok _ (.publish 0 q [] []) _ _ _ (applyField_qos 0 [] [] q hq)]
      rw [applyFields_cons_ok _ (.publish 0 q t []) _ _ _ (applyField_topic 0 q [] t ht)]
      rfl
    · have hrec : putMsg (.publish 0 q t p) =
          [("type", [3]), ("qos", [q]), ("topic", t), ("payload", p)] := by
        simp [putMsg, msgTypeByte, msgPID, hp]
      rw [hrec]
      have hget : getMsg [("type", [3]), ("qos", [q]), ("topic", t), ("payload", p)] =
          applyFields (.publish 0 0 [] [])
            [("payload", p), ("qos", [q]), ("topic", t), ("type", [3])] := rfl
      rw [hget]
      rw [applyFields_cons_ok _ (.publish 0 0 [] p) _ _ _ (applyField_payload 0 0 [] [] p)]
      rw [applyFields_cons_ok _ (.publish 0 q [] p) _ _ _ (applyField_qos 0 [] p q hq)]
      rw [applyFields_cons_ok _ (.publish 0 q t p) _ _ _ (applyField_topic 0 q p t ht)]
      rfl
  · by_cases hp : p = []
    · subst hp
      have hrec : putMsg (.publish pid q t []) =
          [("type", [3]), ("id", itob16 pid), ("qos", [q]), ("topic", t)] := by
        simp [putMsg, msgTypeByte, msgPID, h0]
      rw [hrec]
      have hget : getMsg [("type", [3]), ("id", itob16 pid), ("qos", [q]), ("topic", t)] =
          applyFields (.publish 0 0 [] [])
            [("id", itob16 pid), ("qos", [q]), ("topic", t), ("type", [3])] := rfl
      rw [hget]
      rw [applyFields_cons_ok _ (.publish pid 0 [] []) _ _ _ (applyField_id 0 [] [] pid hpid)]
      rw [applyFields_cons_ok _ (.publish pid q [] []) _ _ _ (applyField_qos pid [] [] q hq)]
      rw [applyFields_cons_ok _ (.publish pid q t []) _ _ _ (applyField_topic pid q [] t ht)]
      rfl
    · have hrec : putMsg (.publish pid q t p) =
          [("type", [3]), ("id", itob16 pid), ("qos", [q]), ("topic", t), ("payload", p)] := by
        simp [putMsg, msgTypeByte, msgPID, h0, hp]
      rw [hrec]
      have hget : getMsg
          [("type", [3]), ("id", itob16 pid), ("qos", [q]), ("topic", t), ("payload", p)] =
          applyFields (.publish 0 0 [] [])
            [("id", itob16 pid), ("payload", p), ("qos", [q]), ("topic", t), ("type", [3])] := rfl
      rw [hget]
      rw [applyFields_cons_ok _ (.publish pid 0 [] []) _ _ _ (applyField_id 0 [] [] pid hpid)]
      rw [applyFields_cons_ok _ (.publish pid 0 [] p) _ _ _ (applyField_payload pid 0 [] [] p)]
      rw [applyFields_cons_ok _ (.publish pid q [] p) _ _ _ (applyField_qos pid [] p q hq)]
      rw [applyFields_cons_ok _ (.publish pid q t p) _ _ _ (applyField_topic pid q p t ht)]
      rfl

theorem getMsg_putMsg (m : StoredMsg) (h : validStored m) :
    getMsg (putMsg m) = .ret (.ok (loadImage m)) := by
  cases m with
  | publish pid q t p =>
    obtain ⟨hpid, hq, ht⟩ := h
    exact getMsg_putMsg_publish pid q t p hpid hq ht
  | pubrel pid => exact getMsg_putMsg_pubrel pid

theorem getMsgsList_map (msgs : List StoredMsg) (h : ∀ m ∈ msgs, validStored m) :
    getMsgsList (msgs.map putMsg) = .ret (.ok (msgs.map loadImage)) := by
  induction msgs with
  | nil => rfl
  | cons m rest ih =>
    simp only [List.map_cons, getMsgsList]
    rw [getMsg_putMsg m (h m (List.mem_cons_self m rest))]
    rw [ih (fun m' hm' => h m' (List.mem_cons_of_mem m hm'))]

theorem getMsgs_seqPutAll (msgs : List StoredMsg) (h : ∀ m ∈ msgs, validStored m) :
    getMsgs (seqPutAll emptySeq (msgs.map putMsg)) = .ret (.ok (msgs.map loadImage)) := by
  rw [getMsgs, seqPutAll_entries]
  simp only [emptySeq, List.nil_append]
  rw [sortOrdered_eq_self seqLe _ (numberFrom_chain _ (0 + 1))]
  rw [numberFrom_map_snd]
  exact getMsgsList_map msgs h

theorem storeThenLoad_roundtrip (id dir : String) (msgs : List StoredMsg)
    (hdir : dir = "in" ∨ dir = "out") (hv : ∀ m ∈ msgs, validStored m) :
    storeThenLoad (freshSessionState id) id dir msgs =
      .ret (.ok (if dir = "in" then (msgs.map loadImage, ([] : List StoredMsg))
                 else (([] : List StoredMsg), msgs.map loadImage))) := by
  have himg := getMsgs_seqPutAll msgs hv
  rcases hdir with hdir | hdir <;> subst hdir <;>
    simp only [storeThenLoad, messagesStore, freshSessionState, lookupKey, updateKey,
      dirMsgs, messagesLoad, beq_self_eq_true, if_true, Option.getD, himg] <;>
    simp [lookupKey, himg]

/-! ## Claim theorems -/

/-- C1: the claim says every decode returns an `(int, error)` result rather
than panicking on malformed input; the code in fact panics.
`SubAckMessage.decode` on `[0x90, 0x00]` (declared remaining length 0 < 2)
panics reading the packet ID past the end of the buffer; on
`[0x90, 0x01, 0xAA, 0xBB]` (declared remaining length 1 < 2) it panics
slicing `src[total : total+l]` with `l = -1`; `PubRelMessage.decode` on
`[0x62, 0x00]` panics reading the packet ID. -/
theorem decode_panics_on_truncated :
    subAckDecode newSubAckMessage [0x90, 0x00] = .panics ∧
    subAckDecode newSubAckMessage [0x90, 0x01, 0xAA, 0xBB] = .panics ∧
    pubRelDecode newPubRelMessage [0x62, 0x00] = .panics := by
  refine ⟨by decide, by decide, by decide⟩

/-- C2: a fresh PUBREL encodes to an error `ErrPackedIDZero` while its
packet ID is 0, and with packet ID 7 writes exactly
`[0x62, 0x02, 0x00, 0x07]` and returns 4, into any buffer of size ≥ 4. -/
theorem pubrel_encode_cases (dstLen : Nat) (h : 4 ≤ dstLen) :
    pubRelEncode newPubRelMessage dstLen = ([], 0, some .packedIDZero) ∧
    pubRelEncode { newPubRelMessage with packetID := 7 } dstLen =
      ([0x62, 0x02, 0x00, 0x07], 4, none) := by
  have h4 : fullSize pubRelBodySize = 4 := by decide
  constructor
  · simp only [pubRelEncode, h4]
    rw [if_neg (by omega)]
    decide
  · simp only [pubRelEncode, h4]
    rw [if_neg (by omega)]
    decide

/-- Witness for C2 at the concrete buffer size 4. -/
theorem pubrel_encode_cases_witness :
    4 ≤ 4 ∧
    (pubRelEncode newPubRelMessage 4 = ([], 0, some .packedIDZero) ∧
     pubRelEncode { newPubRelMessage with packetID := 7 } 4 =
       ([0x62, 0x02, 0x00, 0x07], 4, none)) :=
  ⟨by decide, pubrel_encode_cases 4 (by decide)⟩

/-- C3 counterexample: `UnSubAckMessage.Encode` (the UNSUBACK message also
carries a packet identifier) does not fail when the packet ID is still
unset: a freshly constructed UNSUBACK encodes successfully, writing the zero
identifier `0x00 0x00` to the wire when dirty, and returns no error in
either dirty state — refuting the claim that every packet type with a
packet identifier rejects the zero sentinel on encode. -/
theorem unsuback_encode_writes_zero_id :
    unSubAckEncode (mkUnSubAck true) 4 = ([0xB0, 0x02, 0x00, 0x00], 4, none) ∧
    unSubAckEncode (mkUnSubAck false) 4 = ([], 0, none) := by
  refine ⟨by decide, by decide⟩

/-- C3 (amended): PUBREL and SUBACK refuse to encode a zero packet
identifier with `ErrPackedIDZero` and write nothing; UNSUBACK (older
revision, see the counterexample) performs no such check. -/
theorem packet_id_zero_rejected (msgP : PubRelMessage) (msgS : SubAckMessage)
    (dstLen : Nat) (hP : msgP.packetID = 0) (hS : msgS.packetID = 0)
    (hlenP : fullSize pubRelBodySize ≤ dstLen)
    (hlenS : fullSize (subAckBodySize msgS) ≤ dstLen) :
    pubRelEncode msgP dstLen = ([], 0, some .packedIDZero) ∧
    subAckEncode msgS dstLen = ([], 0, some .packedIDZero) := by
  constructor
  · simp only [pubRelEncode]
    rw [if_neg (by omega)]
    simp [pubRelPreEncode, hP]
  · simp only [subAckEncode]
    rw [if_neg (by omega)]
    simp [subAckPreEncode, hS]

/-- Witness for the amended C3 at the freshly constructed messages. -/
theorem packet_id_zero_rejected_witness :
    (newPubRelMessage.packetID = 0 ∧ newSubAckMessage.packetID = 0 ∧
     fullSize pubRelBodySize ≤ 4 ∧ fullSize (subAckBodySize newSubAckMessage) ≤ 4) ∧
    (pubRelEncode newPubRelMessage 4 = ([], 0, some .packedIDZero) ∧
     subAckEncode newSubAckMessage 4 = ([], 0, some .packedIDZero)) :=
  ⟨⟨rfl, rfl, by decide, by decide⟩,
   packet_id_zero_rejected newPubRelMessage newSubAckMessage 4 rfl rfl
     (by decide) (by decide)⟩

/-- C4: decoding a well-formed SUBACK wire buffer carrying an arbitrary list
of return-code bytes succeeds exactly when every byte is `IsValidFull`
(0, 1, 2 or 0x80) and fails with `ErrInvalidReturnCode` otherwise; the
decoded message carries exactly the bytes from the wire. -/
theorem suback_return_code_validation (codes : List Nat)
    (hn : 2 + codes.length ≤ 268435455) :
    subAckDecode newSubAckMessage
      (0x90 :: (encodeVarint (2 + codes.length) ++ (0 :: 7 :: codes))) =
    .ret ({ mTypeFlags := 0x90, remLen := 2 + codes.length, packetID := 7,
            returnCodes := codes },
          1 + (encodeVarint (2 + codes.length)).length + 2 + codes.length,
          if codes.all isValidFull then none else some Err.invalidReturnCode) :=
  subAckDecode_wire codes hn

/-- Witness for C4 at the code list `[0, 3]`: 3 is not a valid return code,
so the decode fails with `ErrInvalidReturnCode` while still reporting the
decoded bytes and total. -/
theorem suback_return_code_validation_witness :
    2 + ([0, 3] : List Nat).length ≤ 268435455 ∧
    subAckDecode newSubAckMessage
      (0x90 :: (encodeVarint (2 + ([0, 3] : List Nat).length) ++ (0 :: 7 :: [0, 3]))) =
    .ret ({ mTypeFlags := 0x90, remLen := 2 + ([0, 3] : List Nat).length, packetID := 7,
            returnCodes := [0, 3] },
          1 + (encodeVarint (2 + ([0, 3] : List Nat).length)).length + 2 +
            ([0, 3] : List Nat).length,
          if ([0, 3] : List Nat).all isValidFull then none
          else some Err.invalidReturnCode) :=
  ⟨by decide, suback_return_code_validation [0, 3] (by decide)⟩

/-- C5 counterexample: storing a PUBREL with packet ID 7 and loading it back
yields a PUBREL with packet ID 0 — `getMsgs` has no PUBREL case in its field
switch, so the stored `id` field is never restored, refuting "same packet
ID". -/
theorem pubrel_packet_id_not_restored :
    storeThenLoad (freshSessionState "s") "s" "in" [.pubrel 7] =
      .ret (.ok ([.pubrel 0], [])) ∧
    ¬ storeThenLoad (freshSessionState "s") "s" "in" [.pubrel 7] =
      .ret (.ok ([.pubrel 7], [])) := by
  refine ⟨by decide, by decide⟩

/-- C5 (amended): storing then loading preserves, per direction, the packet
count, the order, and the full contents of PUBLISH packets (packet ID, QoS,
topic, payload); PUBREL packets come back with their type but with packet ID
0 instead of the stored identifier. -/
theorem store_load_roundtrip (id dir : String) (msgs : List StoredMsg)
    (hdir : dir = "in" ∨ dir = "out") (hv : ∀ m ∈ msgs, validStored m) :
    storeThenLoad (freshSessionState id) id dir msgs =
      .ret (.ok (if dir = "in" then (msgs.map loadImage, ([] : List StoredMsg))
                 else (([] : List StoredMsg), msgs.map loadImage))) :=
  storeThenLoad_roundtrip id dir msgs hdir hv

/-- Witness for the amended C5: a PUBLISH and a PUBREL stored in direction
`in`. -/
theorem store_load_roundtrip_witness :
    ((("in" : String) = "in" ∨ ("in" : String) = "out") ∧
     (∀ m ∈ ([.publish 7 1 [97] [2], .pubrel 5] : List StoredMsg), validStored m)) ∧
    storeThenLoad (freshSessionState "s") "s" "in"
        [.publish 7 1 [97] [2], .pubrel 5] =
      .ret (.ok (if ("in" : String) = "in"
        then (([.publish 7 1 [97] [2], .pubrel 5] : List StoredMsg).map loadImage,
              ([] : List StoredMsg))
        else (([] : List StoredMsg),
              ([.publish 7 1 [97] [2], .pubrel 5] : List StoredMsg).map loadImage))) :=
  ⟨⟨Or.inl rfl, by
      intro m hm
      rcases List.mem_cons.mp hm with rfl | hm
      · exact ⟨by omega, by omega, by decide⟩
      rcases List.mem_cons.mp hm with rfl | hm
      · exact trivial
      · cases hm⟩,
   store_load_roundtrip "s" "in" [.publish 7 1 [97] [2], .pubrel 5] (Or.inl rfl)
     (by
      intro m hm
      rcases List.mem_cons.mp hm with rfl | hm
      · exact ⟨by omega, by omega, by decide⟩
      rcases List.mem_cons.mp hm with rfl | hm
      · exact trivial
      · cases hm)⟩

/-- C6: once `Shutdown` has succeeded (it flips the done gate), every public
operation of the boltdb provider and of the objects derived from it — and
likewise for the mem provider — returns `ErrNotOpen`, including a second
`Shutdown` (the `op = shutdown` / `mop = shutdown` instances). -/
theorem shutdown_gate (op : BoltOp) (mop : MemOp) (st st0 : BoltState)
    (ms ms0 : MemState) (h : st.done = true) (h0 : st0.done = false)
    (hm : ms.done = true) (hm0 : ms0.done = false) :
    runBoltErr op st = some .notOpen ∧ runMemErr mop ms = some .notOpen ∧
    boltShutdown st0 = .ok { st0 with done := true } ∧
    memShutdown ms0 = .ok { done := true } := by
  refine ⟨?_, ?_, ?_, ?_⟩
  · cases op <;>
      simp [runBoltErr, errOf, errOfGo, boltSessionsHandle, boltRetainedHandle,
        boltShutdown, sessionsNew, sessionsGet, sessionsGetAll, sessionsDelete,
        sessionSubsHandle, sessionMsgsHandle, sessionID, subsAdd, subsGet, subsDelete,
        messagesStore, messagesLoad, messagesDelete, retainedLoad, retainedStore,
        retainedDelete, h]
  · cases mop <;>
      simp [runMemErr, errOf, memSystem, memSessionsHandle, memRetainedHandle,
        memShutdown, hm]
  · simp [boltShutdown, h0]
  · simp [memShutdown, hm0]

/-- Witness for C6 at concrete open and shut-down provider states. -/
theorem shutdown_gate_witness :
    (({ done := true, sessions := none, retained := none } : BoltState).done = true ∧
     ({ done := false, sessions := none, retained := none } : BoltState).done = false ∧
     ({ done := true } : MemState).done = true ∧
     ({ done := false } : MemState).done = false) ∧
    (runBoltErr .shutdown { done := true, sessions := none, retained := none } =
       some .notOpen ∧
     runMemErr .shutdown { done := true } = some .notOpen ∧
     boltShutdown { done := false, sessions := none, retained := none } =
       .ok { done := true, sessions := none, retained := none } ∧
     memShutdown { done := false } = .ok { done := true }) :=
  ⟨⟨rfl, rfl, rfl, rfl⟩,
   shutdown_gate .shutdown .shutdown
     { done := true, sessions := none, retained := none }
     { done := false, sessions := none, retained := none }
     { done := true } { done := false } rfl rfl rfl rfl⟩

/-- C7: the claim says persistence errors are never silently swallowed; the
code drops them.  `sessions.New` returns `(&ses, nil)` when bucket creation
fails with any error other than `bolt.ErrBucketExists` (here
`ErrTxNotWritable`), and `messages.Load` on a store whose record fails to
reconstruct (reserved type byte 0, conjunct 2) discards the `getMsgs` error
and reports success with an empty queue (conjunct 3). -/
theorem persistence_errors_swallowed :
    sessionsNewOutcome (some .txNotWritable) = (true, none) ∧
    getMsg [("type", [0])] = .ret (.error .invalidMessageType) ∧
    messagesLoad corruptState "s" = .ret (.ok ([], [])) := by
  refine ⟨rfl, by decide, by decide⟩

/-- C8: the claim says an in-flight-transaction counter is incremented
before each transaction and decremented after; in the code the `wgTx`
wait group is never incremented: no operation trace contains a
`wgTx.Add` or `wgTx.Done` event even though each runs a transaction, so the
`wgTx.Wait()` in `Shutdown` returns immediately. -/
theorem wgtx_never_incremented :
    sessionsNewTrace.count .wgAdd = 0 ∧ sessionsNewTrace.count .wgDone = 0 ∧
    txOpTrace.count .wgAdd = 0 ∧ txOpTrace.count .wgDone = 0 ∧
    sessionsNewTrace.count .beginTx = 1 ∧ txOpTrace.count .beginTx = 1 ∧
    shutdownTrace.count .wgWait = 1 := by decide

/-- C9: the nested double iteration of `subscriptions.Get` computes exactly
the same topic-to-QoS map (and the same panic behaviour) as the
straightforward single-pass iteration, for every bucket content. -/
theorem subs_get_double_eq_single (entries : List MsgRec) :
    subsGetDouble entries = subsGetSingle entries := by
  cases entries with
  | nil => rfl
  | cons e rest =>
    by_cases h : scanOk (e :: rest)
    · have hfirst := innerScan_ok (e :: rest) h emptySubMap
      have hS : innerScan (e :: rest) (applyAll (e :: rest) emptySubMap) =
          .ret (applyAll (e :: rest) emptySubMap) := by
        rw [innerScan_ok (e :: rest) h, applyAll_idem]
      rw [subsGetDouble, subsGetSingle, hfirst]
      simp only [outerScan, hfirst]
      exact outerScan_stable rest (e :: rest) _ hS
    · have hpan := innerScan_panics (e :: rest) h
      rw [subsGetDouble, subsGetSingle, hpan]
      simp only [outerScan, hpan emptySubMap]

/-- C10: `AddReturnCodes` is not atomic on failure: it always appends
exactly the longest valid prefix of the input (everything before the first
invalid code) to the message's return-code list, returning
`ErrInvalidReturnCode` when some code is invalid and `nil` when all are
valid. -/
theorem add_return_codes_prefix (msg : SubAckMessage) (ret : List Nat) :
    subAckAddReturnCodes msg ret =
      ({ msg with returnCodes := msg.returnCodes ++ ret.takeWhile isValidFull },
       if ret.all isValidFull then none else some Err.invalidReturnCode) := by
  have hgen : ∀ (r rc : List Nat), addReturnCodes rc r =
      (rc ++ r.takeWhile isValidFull,
       if r.all isValidFull then none else some Err.invalidReturnCode) := by
    intro r
    induction r with
    | nil => intro rc; simp [addReturnCodes]
    | cons c rest ih =>
      intro rc
      by_cases hc : isValidFull c
      · simp [addReturnCodes, hc, ih (rc ++ [c])]
      · simp [addReturnCodes, hc]
  simp [subAckAddReturnCodes, hgen ret msg.returnCodes]

end SurgeMQ

-- quick sanity examples (removed later if needed; they are plain theorems)
example : SurgeMQ.pubRelEncode { SurgeMQ.newPubRelMessage with packetID := 7 } 10 =
    ([0x62, 0x02, 0x00, 0x07], 4, none) := by decide

example : SurgeMQ.pubRelEncode SurgeMQ.newPubRelMessage 10 =
    ([], 0, some .packedIDZero) := by decide

example : SurgeMQ.pubRelDecode SurgeMQ.newPubRelMessage [0x62, 0x00] = .panics := by decide

example : SurgeMQ.subAckDecode SurgeMQ.newSubAckMessage [0x90, 0x00] = .panics := by decide

example : SurgeMQ.subAckDecode SurgeMQ.newSubAckMessage [0x90, 0x01, 0xAA, 0xBB] = .panics := by
  decide

example : SurgeMQ.subAckDecode SurgeMQ.newSubAckMessage [0x90, 0x04, 0x00, 0x07, 0x01, 0x80] =
    .ret ({ mTypeFlags := 0x90, remLen := 4, packetID := 7, returnCodes := [1, 0x80] }, 6, none) := by
  decide

example : SurgeMQ.subAckDecode SurgeMQ.newSubAckMessage [0x90, 0x03, 0x00, 0x07, 0x03] =
    .ret ({ mTypeFlags := 0x90, remLen := 3, packetID := 7, returnCodes := [3] }, 5,
      some .invalidReturnCode) := by decide

example : SurgeMQ.unSubAckEncode (SurgeMQ.mkUnSubAck true) 4 = ([0xB0, 0x02, 0x00, 0x00], 4, none) := by
  decide

example : SurgeMQ.unSubAckEncode (SurgeMQ.mkUnSubAck false) 4 = ([], 0, none) := by decide

example : SurgeMQ.addReturnCodes [] [0, 1, 5, 2] = ([0, 1], some .invalidReturnCode) := by decide

example : SurgeMQ.getMsg (SurgeMQ.putMsg (.pubrel 7)) = .ret (.ok (.pubrel 0)) := by decide

example : SurgeMQ.getMsg (SurgeMQ.putMsg (.publish 7 1 [97] [1, 2])) =
    .ret (.ok (.publish 7 1 [97] [1, 2])) := by decide

example : SurgeMQ.getMsg [("type", [0])] = .ret (.error .invalidMessageType) := by decide

example : SurgeMQ.messagesLoad SurgeMQ.corruptState "s" = .ret (.ok ([], [])) := by decide

example : SurgeMQ.storeThenLoad (SurgeMQ.freshSessionState "s") "s" "in" [.pubrel 7] =
    .ret (.ok ([.pubrel 0], [])) := by decide

example : SurgeMQ.storeThenLoad (SurgeMQ.freshSessionState "s") "s" "out"
    [.publish 9 2 [97, 98] [5], .pubrel 3] =
    .ret (.ok ([], [.publish 9 2 [97, 98] [5], .pubrel 0])) := by decide
